import Mathlib

/-
Verification of the settings reconciliation and validation engine of
`src/chainlit/frontend/src/components/organisms/playground/modelSettings.tsx`.

The embedding models:
  - JavaScript scalar / list values carried by the form (`JsValue`);
  - the provider input declarations (`TFormInput`, from usage in the source);
  - JavaScript objects keyed by parameter id as association lists in
    insertion order (`ValueSet`, `Schema`), with object assignment
    (`setKey`) overwriting an existing key in place and otherwise
    appending at the end, exactly as JS property assignment behaves;
  - the single `reduce` pass of the `ModelSettings` component, which both
    accumulates the resolved `settings` object and builds the `yup`
    validation schema (`settingsStep`, `modelSettingsPass`);
  - the `yup` rules the source constructs, as data (`FieldSchema`) plus a
    validator (`validateField`) following the documented `yup` semantics:
    `yup.number().min(m)` requires value >= m, `.max(m)` requires
    value <= m.

JavaScript numbers are modelled as `Int`: every numeric constant the
claims touch is integral, and only order comparisons matter.
-/

namespace ModelSettings

/-- A JavaScript value as it appears in the settings form:
`string | number | boolean | string[]`. -/
inductive JsValue where
  | str (s : String)
  | num (n : Int)
  | bool (b : Bool)
  | strList (l : List String)
deriving DecidableEq, Repr

/-- JavaScript strict equality `===` as used in
`input?.items?.find((i) => i.value === value)`. Primitives compare by
value. Arrays compare by reference; an item value declared in the
provider catalog and a candidate value carried in from session state are
distinct objects, so `===` on two lists is `false` here. -/
def jsStrictEq : JsValue → JsValue → Bool
  | JsValue.str a, JsValue.str b => a == b
  | JsValue.num a, JsValue.num b => a == b
  | JsValue.bool a, JsValue.bool b => a == b
  | _, _ => false

/-- One `\x7blabel, value\x7d` entry of a `select` input. -/
structure SelectItem where
  label : String := ""
  value : JsValue
deriving DecidableEq, Repr

/-- A provider parameter declaration (`TFormInput` from `FormInput.tsx`,
fields as used by `modelSettings.tsx`): an id, a kind tag (`select`,
`slider`, `tags`, or anything else), optional select items, optional
numeric bounds and an optional initial value. -/
structure TFormInput where
  id : String
  type : String
  items : Option (List SelectItem) := none
  min : Option Int := none
  max : Option Int := none
  initial : Option JsValue := none
deriving DecidableEq, Repr

/-- A JS object mapping parameter ids to values, in insertion order. -/
abbrev ValueSet := List (String × JsValue)

/-- Reading `obj[k]`: the value at the first (hence only) occurrence of
key `k`, or `none` when the property is undefined. -/
def lookupKey {α : Type} (vs : List (String × α)) (k : String) : Option α :=
  (vs.find? (fun kv => kv.1 == k)).map (fun kv => kv.2)

/-- JS object assignment `obj[k] = v`: overwrite the entry in place when
the key is already present, otherwise append the new property at the
end (JS objects keep insertion order). -/
def setKey {α : Type} (vs : List (String × α)) (k : String) (v : α) : List (String × α) :=
  if vs.any (fun kv => kv.1 == k) then
    vs.map (fun kv => if kv.1 == k then (k, v) else kv)
  else vs ++ [(k, v)]

/-- `isSettingCompatible` from the source: for a `select` input the
candidate is compatible iff `input?.items?.find((i) => i.value === value)`
finds an item (absent `items` makes the optional chain yield `undefined`,
so `!!` gives `false`); every other kind is always compatible. -/
def isSettingCompatible (value : JsValue) (input : TFormInput) : Bool :=
  if input.type == "select" then
    match input.items with
    | some items => items.any (fun i => jsStrictEq i.value value)
    | none => false
  else true

/-- A `yup` field rule as the source builds it: `yup.string()` for
selects, `yup.number()` with optional min and max for sliders,
`yup.array().of(yup.string())` for tags. -/
inductive FieldSchema where
  | strSchema
  | numSchema (min : Option Int) (max : Option Int)
  | tagsSchema
deriving DecidableEq, Repr

/-- A validation schema object keyed by parameter id. -/
abbrev Schema := List (String × FieldSchema)

/-- The bound actually installed by `if (input.min) ... if (input.max)`:
the branch is taken only when the bound is defined AND nonzero, because
JavaScript `if (0)` and `if (undefined)` are both falsy. -/
def truthyBound : Option Int → Option Int
  | some m => if m == 0 then none else some m
  | none => none

/-- The `switch (input.type)` of the source: the rule added to the schema
object for one input, or `none` for an unrecognized kind (the switch
has no default case). -/
def fieldRule (input : TFormInput) : Option FieldSchema :=
  if input.type == "select" then some FieldSchema.strSchema
  else if input.type == "slider" then
    some (FieldSchema.numSchema (truthyBound input.min) (truthyBound input.max))
  else if input.type == "tags" then some FieldSchema.tagsSchema
  else none

/-- Validation of one defined value against one field rule, following the
documented `yup` semantics on values of the declared runtime type:
`yup.number().min(m)` requires value >= m and `.max(m)` requires
value <= m; `yup.string()` accepts strings; `yup.array().of(yup.string())`
accepts string lists. -/
def validateField : FieldSchema → JsValue → Bool
  | FieldSchema.strSchema, JsValue.str _ => true
  | FieldSchema.strSchema, _ => false
  | FieldSchema.numSchema mn mx, JsValue.num n =>
    (match mn with | some m => decide (m ≤ n) | none => true) &&
    (match mx with | some m => decide (n ≤ m) | none => true)
  | FieldSchema.numSchema _ _, _ => false
  | FieldSchema.tagsSchema, JsValue.strList _ => true
  | FieldSchema.tagsSchema, _ => false

/-- The `settings` half of the reduce body: pick the candidate
(`currentSettings[input.id]` if defined, else `origSettings[input.id]`);
store it when defined and compatible; else store `input.initial` when
defined; else leave the object unchanged. -/
def resolveStep (currentSettings origSettings : ValueSet)
    (settings : ValueSet) (input : TFormInput) : ValueSet :=
  let settingValue : Option JsValue :=
    match lookupKey currentSettings input.id with
    | some v => some v
    | none => lookupKey origSettings input.id
  match settingValue with
  | some v =>
    if isSettingCompatible v input then setKey settings input.id v
    else
      match input.initial with
      | some i => setKey settings input.id i
      | none => settings
  | none =>
    match input.initial with
    | some i => setKey settings input.id i
    | none => settings

/-- The `object` half of the reduce body: add the rule the switch
produces for this input, if any. -/
def schemaStep (object : Schema) (input : TFormInput) : Schema :=
  match fieldRule input with
  | some r => setKey object input.id r
  | none => object

/-- One iteration of the `provider.inputs.reduce` body, which updates the
`settings` object and the schema `object` for one input. -/
def settingsStep (currentSettings origSettings : ValueSet)
    (acc : ValueSet × Schema) (input : TFormInput) : ValueSet × Schema :=
  (resolveStep currentSettings origSettings acc.1 input, schemaStep acc.2 input)

/-- The whole pass of `ModelSettings` over `provider.inputs`: starting
from the fresh empty `settings` object and the empty schema object, fold
the reduce body over the catalog in order. -/
def modelSettingsPass (inputs : List TFormInput)
    (currentSettings origSettings : ValueSet) : ValueSet × Schema :=
  inputs.foldl (settingsStep currentSettings origSettings) ([], [])

/-- The resolver of the spec (SettingsResolver.resolve): the `settings`
object produced by the pass. -/
def resolve (inputs : List TFormInput) (currentSettings origSettings : ValueSet) : ValueSet :=
  (modelSettingsPass inputs currentSettings origSettings).1

/-- The schema factory of the spec (SchemaFactory.build): the schema
object produced by the pass (it does not depend on the value sets). -/
def buildSchema (inputs : List TFormInput) : Schema :=
  (modelSettingsPass inputs [] []).2

/-- A kind the schema switch recognizes. -/
def recognizedKind (t : String) : Bool :=
  t == "select" || t == "slider" || t == "tags"

/-- Whether the object already has a property named `k`. -/
def hasKey {α : Type} (vs : List (String × α)) (k : String) : Bool :=
  vs.any (fun kv => kv.1 == k)

theorem hasKey_iff {α : Type} (vs : List (String × α)) (k : String) :
    hasKey vs k = true ↔ k ∈ vs.map Prod.fst := by
  constructor
  · intro h
    rcases List.any_eq_true.mp h with ⟨kv, hmem, hbeq⟩
    have hk : kv.1 = k := by simpa using hbeq
    exact hk ▸ List.mem_map_of_mem Prod.fst hmem
  · intro h
    rcases List.mem_map.mp h with ⟨kv, hmem, hfst⟩
    exact List.any_eq_true.mpr ⟨kv, hmem, by simp [hfst]⟩

theorem find?_map_replace {α : Type} (vs : List (String × α)) (k : String) (v : α)
    (h : vs.any (fun kv => kv.1 == k) = true) :
    (vs.map (fun kv => if kv.1 == k then (k, v) else kv)).find? (fun kv => kv.1 == k)
      = some (k, v) := by
  induction vs with
  | nil => simp at h
  | cons kv t ih =>
    by_cases hkv : (kv.1 == k) = true
    · simp only [List.map_cons, hkv, if_true]
      exact List.find?_cons_of_pos _ (by simp)
    · simp only [List.any_cons, Bool.or_eq_true] at h
      rcases h with h | h
      · exact absurd h hkv
      · simp only [Bool.not_eq_true] at hkv
        simp only [List.map_cons, hkv, Bool.false_eq_true, if_false]
        rw [List.find?_cons_of_neg _ (by simp [hkv])]
        exact ih h

theorem find?_append_single {α : Type} (vs : List (String × α)) (k : String) (v : α)
    (h : vs.any (fun kv => kv.1 == k) = false) :
    (vs ++ [(k, v)]).find? (fun kv => kv.1 == k) = some (k, v) := by
  induction vs with
  | nil =>
    simp only [List.nil_append]
    exact List.find?_cons_of_pos _ (by simp)
  | cons kv t ih =>
    simp only [List.any_cons, Bool.or_eq_false_iff] at h
    simp only [List.cons_append]
    rw [List.find?_cons_of_neg _ (by simp [h.1])]
    exact ih h.2

/-- After `obj[k] = v`, reading `obj[k]` yields `v`. -/
theorem lookupKey_setKey_self {α : Type} (vs : List (String × α)) (k : String) (v : α) :
    lookupKey (setKey vs k v) k = some v := by
  unfold setKey
  by_cases h : vs.any (fun kv => kv.1 == k) = true
  · simp only [h, if_true, lookupKey, find?_map_replace vs k v h]
    rfl
  · simp only [Bool.not_eq_true] at h
    simp only [h, Bool.false_eq_true, if_false, lookupKey, find?_append_single vs k v h]
    rfl

theorem lookupKey_map_replace_ne {α : Type} (vs : List (String × α)) (k : String) (v : α)
    (j : String) (h : j ≠ k) :
    lookupKey (vs.map (fun kv => if kv.1 == k then (k, v) else kv)) j = lookupKey vs j := by
  have hkj : (k == j) = false := by
    simp only [beq_eq_false_iff_ne, ne_eq]
    exact fun hc => h hc.symm
  induction vs with
  | nil => rfl
  | cons kv t ih =>
    by_cases hkv : (kv.1 == k) = true
    · have hkvj : (kv.1 == j) = false := by
        have hk : kv.1 = k := by simpa using hkv
        simp [hk, hkj]
      simp only [List.map_cons, hkv, if_true, lookupKey, List.find?, hkj, hkvj]
      exact ih
    · simp only [Bool.not_eq_true] at hkv
      simp only [List.map_cons, hkv, Bool.false_eq_true, if_false, lookupKey, List.find?]
      by_cases hj : (kv.1 == j) = true
      · simp [hj]
      · simp only [Bool.not_eq_true] at hj
        simp only [hj]
        exact ih

theorem lookupKey_append_single_ne {α : Type} (vs : List (String × α)) (k : String) (v : α)
    (j : String) (h : j ≠ k) :
    lookupKey (vs ++ [(k, v)]) j = lookupKey vs j := by
  have hkj : (k == j) = false := by
    simp only [beq_eq_false_iff_ne, ne_eq]
    exact fun hc => h hc.symm
  induction vs with
  | nil => simp [lookupKey, List.find?, hkj]
  | cons kv t ih =>
    simp only [List.cons_append, lookupKey, List.find?]
    by_cases hj : (kv.1 == j) = true
    · simp [hj]
    · simp only [Bool.not_eq_true] at hj
      simp only [hj]
      exact ih

/-- After `obj[k] = v`, reading any other property is unchanged. -/
theorem lookupKey_setKey_ne {α : Type} (vs : List (String × α)) (k : String) (v : α)
    (j : String) (h : j ≠ k) :
    lookupKey (setKey vs k v) j = lookupKey vs j := by
  unfold setKey
  by_cases hmem : vs.any (fun kv => kv.1 == k) = true
  · simp only [hmem, if_true]
    exact lookupKey_map_replace_ne vs k v j h
  · simp only [Bool.not_eq_true] at hmem
    simp only [hmem, Bool.false_eq_true, if_false]
    exact lookupKey_append_single_ne vs k v j h

theorem keys_setKey_of_not_mem {α : Type} (vs : List (String × α)) (k : String) (v : α)
    (h : vs.any (fun kv => kv.1 == k) = false) :
    (setKey vs k v).map Prod.fst = vs.map Prod.fst ++ [k] := by
  simp [setKey, h]

/-- Keys after an assignment: either an old key or the assigned one. -/
theorem mem_keys_setKey {α : Type} (vs : List (String × α)) (k : String) (v : α)
    (j : String) (h : j ∈ (setKey vs k v).map Prod.fst) :
    j ∈ vs.map Prod.fst ∨ j = k := by
  unfold setKey at h
  by_cases hmem : vs.any (fun kv => kv.1 == k) = true
  · simp only [hmem, if_true, List.map_map] at h
    rcases List.mem_map.mp h with ⟨kv, hkv, hj⟩
    by_cases hk : (kv.1 == k) = true
    · right
      simp only [Function.comp_apply, hk, if_true] at hj
      exact hj.symm
    · left
      simp only [Bool.not_eq_true] at hk
      simp only [Function.comp_apply, hk, Bool.false_eq_true, if_false] at hj
      exact hj ▸ List.mem_map_of_mem Prod.fst hkv
  · simp only [Bool.not_eq_true] at hmem
    simp only [hmem, Bool.false_eq_true, if_false, List.map_append] at h
    rcases List.mem_append.mp h with h1 | h1
    · exact Or.inl h1
    · right
      simpa using h1

/-- One reduce iteration never touches a settings key other than the id
of the input it processes. -/
theorem resolveStep_lookupKey_ne (currentSettings origSettings : ValueSet)
    (s : ValueSet) (input : TFormInput) (j : String) (h : j ≠ input.id) :
    lookupKey (resolveStep currentSettings origSettings s input) j = lookupKey s j := by
  unfold resolveStep
  dsimp only
  split
  · split
    · exact lookupKey_setKey_ne s input.id _ j h
    · split
      · exact lookupKey_setKey_ne s input.id _ j h
      · rfl
  · split
    · exact lookupKey_setKey_ne s input.id _ j h
    · rfl

/-- Folding the reduce over inputs whose ids all differ from `j` leaves
the property `j` of the settings object unchanged. -/
theorem foldl_resolveStep_lookupKey_ne (currentSettings origSettings : ValueSet)
    (j : String) :
    ∀ (l : List TFormInput) (acc : ValueSet), (∀ q ∈ l, j ≠ q.id) →
      lookupKey (l.foldl (resolveStep currentSettings origSettings) acc) j = lookupKey acc j := by
  intro l
  induction l with
  | nil => intro acc _; rfl
  | cons a t ih =>
    intro acc h
    simp only [List.foldl_cons]
    rw [ih _ (fun q hq => h q (List.mem_cons_of_mem a hq))]
    exact resolveStep_lookupKey_ne currentSettings origSettings acc a j
      (h a (List.mem_cons_self a t))

/-- The single reduce of the source decomposes into the resolver fold and
the schema fold, which act on the two components independently. -/
theorem foldl_settingsStep_eq (currentSettings origSettings : ValueSet) :
    ∀ (l : List TFormInput) (a : ValueSet) (b : Schema),
      l.foldl (settingsStep currentSettings origSettings) (a, b)
        = (l.foldl (resolveStep currentSettings origSettings) a, l.foldl schemaStep b) := by
  intro l
  induction l with
  | nil => intro a b; rfl
  | cons x t ih =>
    intro a b
    exact ih (resolveStep currentSettings origSettings a x) (schemaStep b x)

theorem resolve_eq_foldl (inputs : List TFormInput) (currentSettings origSettings : ValueSet) :
    resolve inputs currentSettings origSettings
      = inputs.foldl (resolveStep currentSettings origSettings) [] := by
  unfold resolve modelSettingsPass
  rw [foldl_settingsStep_eq]

theorem buildSchema_eq_foldl (inputs : List TFormInput) :
    buildSchema inputs = inputs.foldl schemaStep [] := by
  unfold buildSchema modelSettingsPass
  rw [foldl_settingsStep_eq]

/-- Keys produced by one reduce iteration: old keys plus possibly the id
of the processed input. -/
theorem mem_keys_resolveStep (currentSettings origSettings : ValueSet)
    (s : ValueSet) (input : TFormInput) (j : String)
    (h : j ∈ (resolveStep currentSettings origSettings s input).map Prod.fst) :
    j ∈ s.map Prod.fst ∨ j = input.id := by
  unfold resolveStep at h
  dsimp only at h
  split at h
  · split at h
    · exact mem_keys_setKey s input.id _ j h
    · split at h
      · exact mem_keys_setKey s input.id _ j h
      · exact Or.inl h
  · split at h
    · exact mem_keys_setKey s input.id _ j h
    · exact Or.inl h

theorem mem_keys_foldl_resolveStep (currentSettings origSettings : ValueSet) (j : String) :
    ∀ (l : List TFormInput) (acc : ValueSet),
      j ∈ (l.foldl (resolveStep currentSettings origSettings) acc).map Prod.fst →
      j ∈ acc.map Prod.fst ∨ j ∈ l.map TFormInput.id := by
  intro l
  induction l with
  | nil => intro acc h; exact Or.inl h
  | cons a t ih =>
    intro acc h
    rcases ih _ h with h1 | h1
    · rcases mem_keys_resolveStep currentSettings origSettings acc a j h1 with h2 | h2
      · exact Or.inl h2
      · exact Or.inr (by simp [h2])
    · exact Or.inr (List.mem_cons_of_mem _ h1)

/-- The switch adds a rule exactly for the recognized kinds. -/
theorem fieldRule_isSome (input : TFormInput) :
    (fieldRule input).isSome = recognizedKind input.type := by
  unfold fieldRule recognizedKind
  rcases Bool.eq_false_or_eq_true (input.type == "select") with h1 | h1 <;>
    rcases Bool.eq_false_or_eq_true (input.type == "slider") with h2 | h2 <;>
      rcases Bool.eq_false_or_eq_true (input.type == "tags") with h3 | h3 <;>
        simp [h1, h2, h3]

/-- The candidate of the spec, stated from its words (section 4.1,
step 1): `current[p.id]` if defined, else `original[p.id]` if defined,
else undefined. -/
def specCandidate (current original : ValueSet) (p : TFormInput) : Option JsValue :=
  match lookupKey current p.id with
  | some v => some v
  | none => lookupKey original p.id

/-- The per-parameter resolved value of the spec, stated from its words
(section 4.1, steps 2 to 4): the candidate when defined and compatible;
else `p.initial` when defined; else undefined (the key is omitted). -/
def specResolvedValue (current original : ValueSet) (p : TFormInput) : Option JsValue :=
  match specCandidate current original p with
  | some v => if isSettingCompatible v p then some v else p.initial
  | none => p.initial

/-- The candidate expression inside `resolveStep` is the candidate of the
spec, so one reduce iteration can be re-stated through it. -/
theorem resolveStep_eq (currentSettings origSettings : ValueSet)
    (s : ValueSet) (input : TFormInput) :
    resolveStep currentSettings origSettings s input
      = match specCandidate currentSettings origSettings input with
        | some v =>
          if isSettingCompatible v input then setKey s input.id v
          else
            match input.initial with
            | some i => setKey s input.id i
            | none => s
        | none =>
          match input.initial with
          | some i => setKey s input.id i
          | none => s := rfl

/-- One reduce iteration puts exactly the resolved value of the spec at
the id of the input it processes (when that key was still unset). -/
theorem resolveStep_lookupKey_self (currentSettings origSettings : ValueSet)
    (s : ValueSet) (p : TFormInput) (hs : lookupKey s p.id = none) :
    lookupKey (resolveStep currentSettings origSettings s p) p.id
      = specResolvedValue currentSettings origSettings p := by
  rw [resolveStep_eq]
  unfold specResolvedValue
  cases hsv : specCandidate currentSettings origSettings p with
  | some v =>
    by_cases hc : isSettingCompatible v p = true
    · simp [hc, lookupKey_setKey_self]
    · simp only [Bool.not_eq_true] at hc
      simp only [hc, Bool.false_eq_true, if_false]
      cases hi : p.initial with
      | some i => simp [lookupKey_setKey_self]
      | none => exact hs
  | none =>
    cases hi : p.initial with
    | some i => simp [lookupKey_setKey_self]
    | none => exact hs

/-- Folding the reduce over a catalog with distinct ids resolves every
member to exactly the value the spec prescribes, provided its key starts
unset in the accumulator. -/
theorem lookupKey_foldl_resolveStep (currentSettings origSettings : ValueSet) :
    ∀ (l : List TFormInput) (acc : ValueSet) (p : TFormInput),
      p ∈ l → (l.map TFormInput.id).Nodup → lookupKey acc p.id = none →
      lookupKey (l.foldl (resolveStep currentSettings origSettings) acc) p.id
        = specResolvedValue currentSettings origSettings p := by
  intro l
  induction l with
  | nil => intro acc p hp _ _; exact absurd hp (List.not_mem_nil p)
  | cons a t ih =>
    intro acc p hp hnd hacc
    rw [List.map_cons, List.nodup_cons] at hnd
    rcases List.mem_cons.mp hp with rfl | hpt
    · simp only [List.foldl_cons]
      have hrest : ∀ q ∈ t, p.id ≠ q.id := by
        intro q hq heq
        exact hnd.1 (heq ▸ List.mem_map_of_mem TFormInput.id hq)
      rw [foldl_resolveStep_lookupKey_ne currentSettings origSettings p.id t _ hrest]
      exact resolveStep_lookupKey_self currentSettings origSettings acc p hacc
    · simp only [List.foldl_cons]
      have hne : p.id ≠ a.id := by
        intro hep
        exact hnd.1 (hep ▸ List.mem_map_of_mem TFormInput.id hpt)
      refine ih _ p hpt hnd.2 ?_
      rw [resolveStep_lookupKey_ne currentSettings origSettings acc a p.id hne]
      exact hacc

/-- Keys of the schema fold over a catalog with distinct ids, starting
from an object whose keys are disjoint from the catalog: the old keys
followed by the ids of the recognized entries, in catalog order. -/
theorem keys_foldl_schemaStep :
    ∀ (l : List TFormInput) (b : Schema),
      (l.map TFormInput.id).Nodup →
      (∀ j ∈ b.map Prod.fst, j ∉ l.map TFormInput.id) →
      (l.foldl schemaStep b).map Prod.fst
        = b.map Prod.fst ++ (l.filter (fun i => recognizedKind i.type)).map TFormInput.id := by
  intro l
  induction l with
  | nil => intro b _ _; simp
  | cons a t ih =>
    intro b hnd hdisj
    rw [List.map_cons, List.nodup_cons] at hnd
    by_cases hrec : recognizedKind a.type = true
    · obtain ⟨r, hr⟩ := Option.isSome_iff_exists.mp (by rw [fieldRule_isSome]; exact hrec)
      have hstep : schemaStep b a = setKey b a.id r := by unfold schemaStep; rw [hr]
      have hnotmem : b.any (fun kv => kv.1 == a.id) = false := by
        rcases Bool.eq_false_or_eq_true (hasKey b a.id) with ht | hf
        · exact absurd (show a.id ∈ (a :: t).map TFormInput.id by simp)
            (hdisj a.id ((hasKey_iff b a.id).mp ht))
        · exact hf
      have hkeys : (setKey b a.id r).map Prod.fst = b.map Prod.fst ++ [a.id] :=
        keys_setKey_of_not_mem b a.id r hnotmem
      simp only [List.foldl_cons, hstep]
      rw [ih (setKey b a.id r) hnd.2 ?_]
      · rw [hkeys]
        simp [List.filter_cons, hrec, List.append_assoc]
      · intro j hj
        rw [hkeys] at hj
        rcases List.mem_append.mp hj with h1 | h1
        · intro hcon
          exact hdisj j h1 (List.mem_cons_of_mem _ hcon)
        · have hja : j = a.id := by simpa using h1
          exact hja ▸ hnd.1
    · have hr : fieldRule a = none := by
        apply Option.not_isSome_iff_eq_none.mp
        rw [Bool.not_eq_true, fieldRule_isSome]
        simpa using hrec
      have hstep : schemaStep b a = b := by unfold schemaStep; rw [hr]
      simp only [List.foldl_cons, hstep]
      rw [ih b hnd.2 (fun j hj hc => hdisj j hj (List.mem_cons_of_mem _ hc))]
      have hf : recognizedKind a.type = false := by simpa using hrec
      simp [List.filter_cons, hf]

/-- A provider as exposed to the panel (`ILLMProvider` from
`state/playground`, fields as used by `modelSettings.tsx`): id, display
name, whether it is chat oriented, and its input catalog. -/
structure LLMProvider where
  id : String
  name : String
  is_chat : Bool := false
  inputs : List TFormInput := []
deriving DecidableEq, Repr

/-- The prompt held in the playground state, restricted to the fields the
settings panel reads and writes: the provider id, a representative
non-settings field, and the settings value set. -/
structure Prompt where
  provider : Option String := none
  template : Option String := none
  settings : ValueSet := []
deriving DecidableEq, Repr

/-- The shared playground session state (`playgroundState` from
`state/playground`): the known providers, the editable prompt and the
original prompt captured at load time. -/
structure PlaygroundState where
  providers : List LLMProvider := []
  prompt : Option Prompt := none
  originalPrompt : Option Prompt := none
deriving DecidableEq, Repr

/-- The field-edit synchronization of `SettingsForm` (the `useEffect` on
`formik.values`): `setPlayground(old => (\x7b ...old, prompt: \x7b ...old.prompt!,
settings: formik.values \x7d \x7d))`. The outer spread keeps every other field
of the state; the inner spread keeps every other field of the prompt and
replaces `settings` wholesale. When `old.prompt` is undefined, spreading
it contributes nothing and the new prompt holds only the settings. -/
def syncFieldEdit (old : PlaygroundState) (values : ValueSet) : PlaygroundState :=
  match old.prompt with
  | some p => { old with prompt := some { p with settings := values } }
  | none =>
    { old with prompt := some { provider := none, template := none, settings := values } }

/-- Modelled from the spec: `getProviders` lives in `playground/helpers`,
which is not under `src/`. Per the spec (sections 2 and 7), it looks the
provider id referenced by the session state up among the known providers;
`providerFound` says whether it was found, and on a miss it falls back to
a designated default provider, modelled as the first known provider.
Returns `(provider, providers, providerFound)` as the source destructures
it. -/
def getProviders (playground : PlaygroundState) :
    Option LLMProvider × List LLMProvider × Bool :=
  match playground.prompt.bind Prompt.provider with
  | some pid =>
    match playground.providers.find? (fun p => p.id == pid) with
    | some p => (some p, playground.providers, true)
    | none => (playground.providers.head?, playground.providers, false)
  | none => (playground.providers.head?, playground.providers, false)

/-- The warning text of `SettingsForm` when the referenced provider id is
missing: the template literal names the missing id and the substituted
provider (the line break and indentation are part of the literal). -/
def providerNotFoundMsg (missing substituted : String) : String :=
  missing ++ " provider is not found, using \n      " ++ substituted ++ " instead."

/-- The `providerWarning` element of `SettingsForm`: rendered only when
`providerFound` is false; it names the missing provider id when the
prompt references one, and otherwise reports that no provider was
specified. The panel is only rendered when a (fallback) provider exists,
since `ModelSettings` returns `null` without one. -/
def providerWarning (playground : PlaygroundState) : Option String :=
  match getProviders playground with
  | (providerOpt, _, providerFound) =>
    if providerFound then none
    else
      match providerOpt with
      | some provider =>
        match playground.prompt.bind Prompt.provider with
        | some pid => some (providerNotFoundMsg pid provider.name)
        | none => some ("Provider not specified, using " ++ provider.name ++ " instead.")
      | none => none

/-- The slider entry of the concrete scenario of the spec (section 8,
property 7): id `temperature`, declared range 0 to 2, initial 1. -/
def temperatureInput : TFormInput :=
  { id := "temperature", type := "slider", min := some 0, max := some 2,
    initial := some (JsValue.num 1) }

/-- The selection entry of the same scenario: id `model`, items `a` and
`b`, initial `a`. -/
def modelSelectInput : TFormInput :=
  { id := "model", type := "select",
    items := some [{ value := JsValue.str "a" }, { value := JsValue.str "b" }],
    initial := some (JsValue.str "a") }

/-- A parameter of a kind the schema switch does not recognize. -/
def unknownKindInput : TFormInput :=
  { id := "mystery", type := "unknown" }

/-- C1: for every ParameterSpec `p` of a catalog (with the invariant that
ids are unique), the resolver output at `p.id` is exactly what the spec
prescribes: the candidate `current[p.id]`, else `original[p.id]`, when
defined and compatible; else `p.initial` when defined; else the key is
absent (the lookup is undefined). -/
theorem resolve_picks_spec_value (inputs : List TFormInput)
    (currentSettings origSettings : ValueSet) (p : TFormInput)
    (hmem : p ∈ inputs) (hnodup : (inputs.map TFormInput.id).Nodup) :
    lookupKey (resolve inputs currentSettings origSettings) p.id
      = specResolvedValue currentSettings origSettings p := by
  rw [resolve_eq_foldl]
  exact lookupKey_foldl_resolveStep currentSettings origSettings inputs [] p hmem hnodup rfl

/-- Witness for C1 at the concrete two-entry catalog of the scenario. -/
theorem resolve_picks_spec_value_witness :
    temperatureInput ∈ [temperatureInput, modelSelectInput] ∧
    ([temperatureInput, modelSelectInput].map TFormInput.id).Nodup ∧
    lookupKey
        (resolve [temperatureInput, modelSelectInput]
          [("temperature", JsValue.num 3)] [("model", JsValue.str "c")])
        temperatureInput.id
      = specResolvedValue [("temperature", JsValue.num 3)] [("model", JsValue.str "c")]
          temperatureInput :=
  ⟨List.mem_cons_self _ _, by decide,
    resolve_picks_spec_value [temperatureInput, modelSelectInput]
      [("temperature", JsValue.num 3)] [("model", JsValue.str "c")] temperatureInput
      (List.mem_cons_self _ _) (by decide)⟩

/-- Compatibility as the spec words it: for kind `selection` the candidate
must equal the value of one of the declared items; every other kind
accepts any defined value. -/
def specCompatible (value : JsValue) (p : TFormInput) : Prop :=
  if p.type = "select" then ∃ i ∈ p.items.getD [], jsStrictEq i.value value = true
  else True

/-- C2: the compatibility check of the source agrees with the kind
specific rule of the spec: a `select` candidate is compatible iff it is
`===` to the value of a declared item; any other kind is always
compatible. -/
theorem isSettingCompatible_matches_spec (value : JsValue) (input : TFormInput) :
    isSettingCompatible value input = true ↔ specCompatible value input := by
  unfold isSettingCompatible specCompatible
  by_cases h : input.type = "select"
  · have hb : (input.type == "select") = true := by simp [h]
    simp only [hb, if_true, h, if_pos]
    cases input.items with
    | none => simp
    | some items => simp [List.any_eq_true]
  · have hb : (input.type == "select") = false := by simp [h]
    simp [hb, h]

/-- The slider of the C3 counterexample: its `min` is declared and is 0. -/
def zeroMinSlider : TFormInput :=
  { id := "temperature", type := "slider", min := some 0 }

/-- C3 counterexample: the claim says a declared `min` is always
enforced, in particular when the declared bound is 0; but for a slider
with declared `min = 0` the built schema entry carries no bound at all
(JavaScript `if (input.min)` is falsy at 0), and its validator accepts
the number `-1`, which is below the declared minimum. -/
theorem slider_zero_min_counterexample :
    zeroMinSlider.min = some 0 ∧
    lookupKey (buildSchema [zeroMinSlider]) "temperature"
      = some (FieldSchema.numSchema none none) ∧
    (lookupKey (buildSchema [zeroMinSlider]) "temperature").map
        (fun r => validateField r (JsValue.num (-1))) = some true ∧
    ((-1 : Int) < 0) :=
  ⟨rfl, by decide, by decide, by decide⟩

/-- C3 as amended: the slider validator accepts numbers; a declared and
nonzero `min` requires value at least `min`, a declared and nonzero `max`
requires value at most `max`; a bound that is declared as 0 (or not
declared) imposes no constraint. -/
theorem slider_validator_matches_declared_bounds (input : TFormInput)
    (h : input.type = "slider") :
    fieldRule input
        = some (FieldSchema.numSchema (truthyBound input.min) (truthyBound input.max)) ∧
    ∀ n : Int,
      validateField
          (FieldSchema.numSchema (truthyBound input.min) (truthyBound input.max))
          (JsValue.num n) = true
        ↔ ((∀ m : Int, input.min = some m → m ≠ 0 → m ≤ n)
            ∧ (∀ m : Int, input.max = some m → m ≠ 0 → n ≤ m)) := by
  constructor
  · simp [fieldRule, h]
  · intro n
    cases hmin : input.min with
    | none =>
      cases hmax : input.max with
      | none => simp [validateField, truthyBound]
      | some mx =>
        by_cases hz : mx = 0
        · subst hz; simp [validateField, truthyBound]
        · simp [validateField, truthyBound, hz]
    | some mn =>
      by_cases hz1 : mn = 0
      · subst hz1
        cases hmax : input.max with
        | none => simp [validateField, truthyBound]
        | some mx =>
          by_cases hz : mx = 0
          · subst hz; simp [validateField, truthyBound]
          · simp [validateField, truthyBound, hz]
      · cases hmax : input.max with
        | none => simp [validateField, truthyBound, hz1]
        | some mx =>
          by_cases hz : mx = 0
          · subst hz; simp [validateField, truthyBound, hz1]
          · simp [validateField, truthyBound, hz1, hz]

/-- Witness for the amended C3 at a slider with bounds 1 and 2: the value
1 satisfies the built validator. -/
theorem slider_validator_matches_declared_bounds_witness :
    validateField
        (FieldSchema.numSchema (truthyBound (some 1)) (truthyBound (some 2)))
        (JsValue.num 1) = true :=
  ((slider_validator_matches_declared_bounds
      { id := "temperature", type := "slider", min := some 1, max := some 2 } rfl).2 1).mpr
    (by
      refine ⟨fun m hm hz => ?_, fun m hm hz => ?_⟩ <;>
        · simp only [Option.some.injEq] at hm
          omega)

/-- C4: no key leakage -- every key of the resolved ValueSet is the id of
some catalog entry, for every catalog and every pair of input ValueSets;
keys of the inputs that are not in the catalog never reach the result. -/
theorem resolve_no_key_leakage (inputs : List TFormInput)
    (currentSettings origSettings : ValueSet) (k : String)
    (h : k ∈ (resolve inputs currentSettings origSettings).map Prod.fst) :
    k ∈ inputs.map TFormInput.id := by
  rw [resolve_eq_foldl] at h
  rcases mem_keys_foldl_resolveStep currentSettings origSettings k inputs [] h with h1 | h1
  · simp at h1
  · exact h1

/-- Witness for C4: the key `temperature` of a concrete resolver output
is an id of the catalog. -/
theorem resolve_no_key_leakage_witness :
    "temperature"
        ∈ (resolve [temperatureInput] [("temperature", JsValue.num 3)] []).map Prod.fst ∧
    "temperature" ∈ [temperatureInput].map TFormInput.id :=
  ⟨by decide,
    resolve_no_key_leakage [temperatureInput] [("temperature", JsValue.num 3)] []
      "temperature" (by decide)⟩

/-- C5: for a catalog with unique ids, the built schema has exactly one
entry per catalog entry of a recognized kind (`select`, `slider`,
`tags`), in catalog order, and no entry for an unrecognized kind -- so
an unrecognized field has no rule that could block it. -/
theorem buildSchema_keys (inputs : List TFormInput)
    (h : (inputs.map TFormInput.id).Nodup) :
    (buildSchema inputs).map Prod.fst
      = (inputs.filter (fun i => recognizedKind i.type)).map TFormInput.id := by
  rw [buildSchema_eq_foldl]
  have hk := keys_foldl_schemaStep inputs [] h (by intro j hj; simp at hj)
  simpa using hk

/-- Witness for C5 on a catalog holding a slider, a selection and an
unrecognized kind: the schema keys are exactly the two recognized ids. -/
theorem buildSchema_keys_witness :
    ([temperatureInput, modelSelectInput, unknownKindInput].map TFormInput.id).Nodup ∧
    (buildSchema [temperatureInput, modelSelectInput, unknownKindInput]).map Prod.fst
      = ([temperatureInput, modelSelectInput, unknownKindInput].filter
          (fun i => recognizedKind i.type)).map TFormInput.id :=
  ⟨by decide, buildSchema_keys [temperatureInput, modelSelectInput, unknownKindInput] (by decide)⟩

/-- C6: the concrete scenario -- catalog `[temperature (slider 0..2,
initial 1), model (select a|b, initial a)]`, `current = (temperature: 3)`,
`original = (model: "c")` -- resolves to exactly `(temperature: 3,
model: "a")`: the out-of-range number 3 is carried over unchanged
(no compatibility check for sliders) and the unknown selection value `c`
falls back to the initial `a`. -/
theorem resolve_scenario_out_of_range_and_fallback :
    resolve [temperatureInput, modelSelectInput]
        [("temperature", JsValue.num 3)] [("model", JsValue.str "c")]
      = [("temperature", JsValue.num 3), ("model", JsValue.str "a")] := by
  decide

/-- C7: the resolver is a deterministic function of the observable
content of its inputs: whenever the two current sets and the two original
sets are deep-equal (the same lookup at every key, whatever their
representation), the two calls return structurally identical outputs. In
this embedding the resolver is a pure function that builds its result
from the fresh empty object, so the inputs are untouched by
construction. -/
theorem resolve_deterministic_extensional (inputs : List TFormInput)
    (cur1 cur2 org1 org2 : ValueSet)
    (hc : ∀ k, lookupKey cur1 k = lookupKey cur2 k)
    (ho : ∀ k, lookupKey org1 k = lookupKey org2 k) :
    resolve inputs cur1 org1 = resolve inputs cur2 org2 := by
  have hstep : resolveStep cur1 org1 = resolveStep cur2 org2 := by
    funext s input
    unfold resolveStep
    rw [hc input.id, ho input.id]
  rw [resolve_eq_foldl, resolve_eq_foldl, hstep]

/-- Witness for C7: two representations of the same current ValueSet (one
with a shadowed duplicate key) resolve to structurally identical
outputs. -/
theorem resolve_deterministic_extensional_witness :
    resolve [temperatureInput]
        [("temperature", JsValue.num 3), ("temperature", JsValue.num 5)] []
      = resolve [temperatureInput] [("temperature", JsValue.num 3)] [] :=
  resolve_deterministic_extensional [temperatureInput]
    [("temperature", JsValue.num 3), ("temperature", JsValue.num 5)]
    [("temperature", JsValue.num 3)] [] []
    (by
      intro k
      by_cases hk : ("temperature" == k) = true
      · simp [lookupKey, List.find?, hk]
      · simp only [Bool.not_eq_true] at hk
        simp [lookupKey, List.find?, hk])
    (fun _ => rfl)

/-- C8: a field edit writes the full form ValueSet into the prompt
settings as a whole-set replacement and leaves everything else unchanged:
the provider id and the other prompt fields survive, and `originalPrompt`
and `providers` are untouched. -/
theorem syncFieldEdit_whole_set_replacement (old : PlaygroundState) (p : Prompt)
    (values : ValueSet) (h : old.prompt = some p) :
    (syncFieldEdit old values).prompt.map Prompt.settings = some values ∧
    (syncFieldEdit old values).prompt.map Prompt.provider = some p.provider ∧
    (syncFieldEdit old values).prompt.map Prompt.template = some p.template ∧
    (syncFieldEdit old values).originalPrompt = old.originalPrompt ∧
    (syncFieldEdit old values).providers = old.providers := by
  unfold syncFieldEdit
  rw [h]
  exact ⟨rfl, rfl, rfl, rfl, rfl⟩

/-- The prompt of the C8 witness state. -/
def editedPrompt : Prompt :=
  { provider := some "openai", template := some "say hi",
    settings := [("temperature", JsValue.num 1)] }

/-- The C8 witness state before the edit. -/
def editedState : PlaygroundState :=
  { providers := [], prompt := some editedPrompt, originalPrompt := some editedPrompt }

/-- Witness for C8 at a concrete state and a concrete new ValueSet. -/
theorem syncFieldEdit_whole_set_replacement_witness :
    editedState.prompt = some editedPrompt ∧
    ((syncFieldEdit editedState [("temperature", JsValue.num 2)]).prompt.map Prompt.settings
        = some [("temperature", JsValue.num 2)] ∧
      (syncFieldEdit editedState [("temperature", JsValue.num 2)]).prompt.map Prompt.provider
        = some editedPrompt.provider ∧
      (syncFieldEdit editedState [("temperature", JsValue.num 2)]).prompt.map Prompt.template
        = some editedPrompt.template ∧
      (syncFieldEdit editedState [("temperature", JsValue.num 2)]).originalPrompt
        = editedState.originalPrompt ∧
      (syncFieldEdit editedState [("temperature", JsValue.num 2)]).providers
        = editedState.providers) :=
  ⟨rfl, syncFieldEdit_whole_set_replacement editedState editedPrompt
    [("temperature", JsValue.num 2)] rfl⟩

/-- C9: when the prompt references a provider id absent from the known
providers, the panel falls back to the designated default provider (the
first known one) and renders a warning whose text names both the missing
id and the substituted provider. -/
theorem providerWarning_names_missing_and_substituted
    (pg : PlaygroundState) (p : Prompt) (pid : String)
    (d : LLMProvider) (rest : List LLMProvider)
    (h1 : pg.prompt = some p) (h2 : p.provider = some pid)
    (h3 : pg.providers = d :: rest)
    (h4 : ∀ q ∈ pg.providers, q.id ≠ pid) :
    getProviders pg = (some d, pg.providers, false) ∧
    providerWarning pg = some (providerNotFoundMsg pid d.name) ∧
    ∃ before after : String,
      providerNotFoundMsg pid d.name = pid ++ before ++ d.name ++ after := by
  have hfind : pg.providers.find? (fun q => q.id == pid) = none := by
    apply List.find?_eq_none.mpr
    intro q hq hbeq
    exact h4 q hq (by simpa using hbeq)
  have hbind : pg.prompt.bind Prompt.provider = some pid := by
    rw [h1]
    simpa using h2
  have hhead : pg.providers.head? = some d := by rw [h3]; rfl
  have hg : getProviders pg = (some d, pg.providers, false) := by
    unfold getProviders
    rw [hbind]
    dsimp only
    rw [hfind]
    dsimp only
    rw [hhead]
  refine ⟨hg, ?_, ?_⟩
  · unfold providerWarning
    rw [hg, hbind]
    rfl
  · exact ⟨" provider is not found, using \n      ", " instead.", rfl⟩

/-- The single known provider of the C9 witness. -/
def knownProvider : LLMProvider := { id := "openai", name := "OpenAI" }

/-- The C9 witness state: the prompt references the id `anthropic`, which
no known provider has. -/
def missingProviderState : PlaygroundState :=
  { providers := [knownProvider],
    prompt := some { provider := some "anthropic", template := none, settings := [] },
    originalPrompt := none }

/-- Witness for C9: the warning for the concrete state names the missing
id and the substituted provider. -/
theorem providerWarning_names_missing_and_substituted_witness :
    providerWarning missingProviderState
      = some (providerNotFoundMsg "anthropic" "OpenAI") :=
  (providerWarning_names_missing_and_substituted missingProviderState
    { provider := some "anthropic", template := none, settings := [] }
    "anthropic" knownProvider [] rfl rfl rfl (by decide)).2.1

/-- C10: the selection compatibility check is total on malformed specs:
with `items` absent it returns `false` for every candidate (the optional
chain yields `undefined` and `!!` makes it `false`), so resolution of
such a parameter always falls back to its `initial` when defined and
otherwise omits the key. -/
theorem selectCompat_total_without_items (value : JsValue) (input : TFormInput)
    (h1 : input.type = "select") (h2 : input.items = none) :
    isSettingCompatible value input = false ∧
    ∀ currentSettings origSettings : ValueSet,
      lookupKey (resolve [input] currentSettings origSettings) input.id = input.initial := by
  have hcompat : ∀ v : JsValue, isSettingCompatible v input = false := by
    intro v
    unfold isSettingCompatible
    simp [h1, h2]
  refine ⟨hcompat value, ?_⟩
  intro currentSettings origSettings
  rw [resolve_eq_foldl]
  show lookupKey (resolveStep currentSettings origSettings [] input) input.id = input.initial
  rw [resolveStep_lookupKey_self currentSettings origSettings [] input rfl]
  unfold specResolvedValue
  cases hsv : specCandidate currentSettings origSettings input with
  | some v => simp [hcompat v]
  | none => rfl

/-- The malformed selection of the C10 witness: kind `select` with no
item list. -/
def itemlessSelect : TFormInput :=
  { id := "model", type := "select", items := none, initial := some (JsValue.str "a") }

/-- Witness for C10: the candidate `c` is incompatible with the itemless
selection and resolution falls back to the initial `a`. -/
theorem selectCompat_total_without_items_witness :
    isSettingCompatible (JsValue.str "c") itemlessSelect = false ∧
    lookupKey (resolve [itemlessSelect] [("model", JsValue.str "c")] []) itemlessSelect.id
      = itemlessSelect.initial :=
  ⟨(selectCompat_total_without_items (JsValue.str "c") itemlessSelect rfl rfl).1,
    (selectCompat_total_without_items (JsValue.str "c") itemlessSelect rfl rfl).2
      [("model", JsValue.str "c")] []⟩

end ModelSettings
